import Mathlib

/-!
Shallow embedding of the Gemini Live Assistant pipeline (src/main.py).

The program runs five cooperative loops around two queues:
  mic_loop / screen_loop  --> out_queue (asyncio.Queue, maxsize 5) --> send_loop
  receive_loop --> audio_in_queue (unbounded) --> speaker_loop
plus a mouse toggle handler, an overlay thread, a tray thread, and a
startup guard on the API key.  Each loop body is embedded as a step
function on explicit state; queues are lists with head = front.
-/

namespace GeminiLive

/-! ## Data model -/

/-- Mime type of an outbound media chunk (`"audio/pcm"` from the mic loop,
`"image/jpeg"` from the screen loop). -/
inductive MimeType
  | audioPcm
  | imageJpeg
deriving DecidableEq, Repr

/-- One outbound media chunk: the dict `{"mime_type": ..., "data": ...}`
put on `out_queue`.  Payload bytes are modelled as `List Nat`. -/
structure MediaChunk where
  mimeType : MimeType
  data : List Nat
deriving DecidableEq, Repr

/-- `maxsize=5` passed to `asyncio.Queue` for `self.out_queue` in
`GeminiLiveAssistant.__init__` (src/main.py line 212). -/
def OUT_QUEUE_MAXSIZE : Nat := 5

/-- `await out_queue.put(c)`: an `asyncio.Queue` with `maxsize` appends to the
back when below capacity and suspends the caller when full.  `none` models
the blocked (suspended) put. -/
def outPut (q : List MediaChunk) (c : MediaChunk) : Option (List MediaChunk) :=
  if q.length < OUT_QUEUE_MAXSIZE then some (q ++ [c]) else none

/-- `await out_queue.get()`: pops the front element; `none` models a get that
suspends on an empty queue. -/
def outGet (q : List MediaChunk) : Option (MediaChunk × List MediaChunk) :=
  match q with
  | [] => none
  | c :: rest => some (c, rest)

/-! ## Send pipeline: producers and send_loop over out_queue -/

/-- One scheduler event on the outbound side: a producer put (from mic_loop
or screen_loop) or one iteration of `send_loop` (get one chunk, send it). -/
inductive PipeEvent
  | put (c : MediaChunk)
  | sendIter
deriving DecidableEq, Repr

/-- State of the outbound side: the queue contents and the sequence of chunks
already handed to `session.send`, in order. -/
structure SendState where
  outQueue : List MediaChunk
  sent : List MediaChunk
deriving DecidableEq, Repr

/-- One event against `out_queue` / `send_loop`.  A `put` that would exceed
capacity, or a `sendIter` on an empty queue, suspends (`none`): the event
cannot complete until the queue changes.  A completed `sendIter` dequeues
exactly one chunk and passes it to `session.send` (a send failure is
swallowed by the `try/except: pass`, which does not affect ordering). -/
def sendStep (s : SendState) (e : PipeEvent) : Option SendState :=
  match e with
  | .put c =>
    match outPut s.outQueue c with
    | some q => some { outQueue := q, sent := s.sent }
    | none => none
  | .sendIter =>
    match outGet s.outQueue with
    | some (c, q) => some { outQueue := q, sent := s.sent ++ [c] }
    | none => none

/-- Run a sequence of completed events; `none` if some event suspends. -/
def sendRun (s : SendState) : List PipeEvent → Option SendState
  | [] => some s
  | e :: rest =>
    match sendStep s e with
    | some s2 => sendRun s2 rest
    | none => none

/-- The chunks enqueued by a trace, in enqueue order. -/
def enqueuedOf : List PipeEvent → List MediaChunk
  | [] => []
  | .put c :: rest => c :: enqueuedOf rest
  | .sendIter :: rest => enqueuedOf rest

/-- Number of completed `send_loop` iterations in a trace. -/
def sendIterCount : List PipeEvent → Nat
  | [] => 0
  | .put _ :: rest => sendIterCount rest
  | .sendIter :: rest => 1 + sendIterCount rest

/-! ## Mic loop -/

/-- Outcome of one `audio_stream.read(CHUNK_SIZE, ...)` call: a clean read,
a read hitting an input-overflow condition (PyAudio returns the data instead
of raising when `exception_on_overflow=False`), or a non-overflow device
error, which raises regardless of the flag. -/
inductive ReadOutcome
  | ok (data : List Nat)
  | overflow (data : List Nat)
  | deviceError
deriving DecidableEq, Repr

/-- `kwargs = {"exception_on_overflow": False}` (src/main.py line 286), the
keyword argument passed to every `audio_stream.read` in `mic_loop`. -/
def exception_on_overflow_kwarg : Bool := false

/-- Semantics of `audio_stream.read(CHUNK_SIZE, exception_on_overflow=b)`:
overflow raises only when the flag is true; other device errors always
raise.  `Except.error` is a raised exception. -/
def streamRead (exceptionOnOverflow : Bool) : ReadOutcome → Except Unit (List Nat)
  | .ok d => .ok d
  | .overflow d => if exceptionOnOverflow then .error () else .ok d
  | .deviceError => .error ()

/-- State of `mic_loop`: the pending device read outcomes (front = next read)
and the shared outbound queue. -/
structure MicState where
  deviceStream : List ReadOutcome
  outQueue : List MediaChunk
deriving DecidableEq, Repr

/-- Result of one iteration of the `while True` body of `mic_loop`. -/
inductive MicStepResult
  | blocked
  | stepped (s : MicState)
  | raised
deriving DecidableEq, Repr

/-- One iteration of `mic_loop`'s `while True` body: always perform the
device read (consume the head of `deviceStream`); if the read raises, the
exception propagates (there is no `try/except` in `mic_loop`) and the loop
terminates (`raised`); otherwise enqueue the chunk only when
`self.is_streaming` is true, suspending if the queue is full. -/
def mic_loop_iter (is_streaming : Bool) (s : MicState) : MicStepResult :=
  match s.deviceStream with
  | [] => .blocked
  | r :: rest =>
    match streamRead exception_on_overflow_kwarg r with
    | .error _ => .raised
    | .ok data =>
      if is_streaming then
        match outPut s.outQueue { mimeType := .audioPcm, data := data } with
        | some q => .stepped { deviceStream := rest, outQueue := q }
        | none => .blocked
      else
        .stepped { deviceStream := rest, outQueue := s.outQueue }

/-! ## Screen loop -/

/-- Observable effect of one iteration of `screen_loop`'s `while True` body. -/
structure ScreenStep where
  captureAttempted : Bool
  outQueue : Option (List MediaChunk)
  sleepMs : Nat
deriving DecidableEq, Repr

/-- One iteration of `screen_loop`: when `self.is_streaming` is true, attempt
`_capture_screen` (its result or exception is the `capture` argument); on
success enqueue the jpeg chunk (suspending if full) and sleep 1.0 s; on a
capture exception log and sleep 1.0 s.  When the flag is false, do not
capture and sleep 0.2 s. -/
def screen_loop_iter (is_streaming : Bool) (q : List MediaChunk)
    (capture : Except Unit (List Nat)) : ScreenStep :=
  if is_streaming then
    match capture with
    | .ok frameData =>
      { captureAttempted := true
        outQueue := outPut q { mimeType := .imageJpeg, data := frameData }
        sleepMs := 1000 }
    | .error _ =>
      { captureAttempted := true, outQueue := some q, sleepMs := 1000 }
  else
    { captureAttempted := false, outQueue := some q, sleepMs := 200 }

/-! ## Receive loop and speaker loop -/

/-- One event yielded by the remote session: a response object with optional
audio payload (`response.data`) and optional text (`response.text`). -/
structure GenResponse where
  data : Option (List Nat)
  text : Option String
deriving DecidableEq, Repr

/-- Python truthiness of `response.data` (`bytes`): `None` and `b""` are
falsy. -/
def optBytesTruthy : Option (List Nat) → Bool
  | none => false
  | some b => !b.isEmpty

/-- Python truthiness of `response.text` (`str`): `None` and `""` are falsy. -/
def optStrTruthy : Option String → Bool
  | none => false
  | some s => !s.isEmpty

/-- One step of the `async for response in turn` iterator: either the
iterator yields a response, or the iteration (or `session.receive()` itself)
raises. -/
inductive TurnEvent
  | yield (r : GenResponse)
  | raiseErr
deriving DecidableEq, Repr

/-- State touched by `receive_loop`: the inbound audio queue
(`audio_in_queue`, unbounded, head = front) and the console output lines. -/
structure RecvState where
  queue : List (List Nat)
  console : List String
deriving DecidableEq, Repr

/-- Body of the `async for`: `if data := response.data:` pushes the bytes
with `put_nowait` and `continue`s; otherwise `if text := response.text:`
prints it. -/
def respStep (st : RecvState) (r : GenResponse) : RecvState :=
  if optBytesTruthy r.data then
    { queue := st.queue ++ [r.data.getD []], console := st.console }
  else if optStrTruthy r.text then
    { queue := st.queue, console := st.console ++ [r.text.getD ""] }
  else
    st

/-- Run the turn iterator: returns the state after the iteration together
with `true` when the iterator was exhausted without error, `false` when an
event raised (control jumps to the `except Exception: pass`). -/
def turnIter (st : RecvState) : List TurnEvent → RecvState × Bool
  | [] => (st, true)
  | .raiseErr :: _ => (st, false)
  | .yield r :: rest => turnIter (respStep st r) rest

/-- One full iteration of `receive_loop`'s `while True` body (one turn): run
the iterator; if and only if it completed without raising, run the flush
loop `while not audio_in_queue.empty(): get_nowait()`, draining the queue to
empty.  An exception skips the flush (the `try` wraps both). -/
def receive_turn (st : RecvState) (events : List TurnEvent) : RecvState :=
  match turnIter st events with
  | (st2, true) => { queue := [], console := st2.console }
  | (st2, false) => st2

/-- Whether a turn's event list contains a raise. -/
def hasRaise : List TurnEvent → Bool
  | [] => false
  | .raiseErr :: _ => true
  | .yield _ :: rest => hasRaise rest

/-- The audio payloads a raise-free run of the given events would push onto
`audio_in_queue`, in order. -/
def pushedData : List TurnEvent → List (List Nat)
  | [] => []
  | .raiseErr :: _ => []
  | .yield r :: rest =>
    if optBytesTruthy r.data then r.data.getD [] :: pushedData rest
    else pushedData rest

/-- A turn event that yields a response carrying exactly the audio bytes `b`
(no text), as produced by the remote session after a turn boundary. -/
def yieldData (b : List Nat) : TurnEvent :=
  .yield { data := some b, text := none }

/-- `speaker_loop` drains `audio_in_queue` front-first, writing each popped
buffer to the output stream: `written` accumulates the bytes handed to
`stream.write`, in order. -/
def speakerSteps : List (List Nat) → List (List Nat) → List (List Nat)
  | written, [] => written
  | written, b :: rest => speakerSteps (written ++ [b]) rest

/-! ## Toggle controller (on_mouse_click) -/

/-- The pynput mouse buttons distinguished by the handler. -/
inductive MouseButton
  | left
  | right
  | middle
  | x1
  | x2
deriving DecidableEq, Repr

/-- The shared state mutated by the toggle controller: the streaming flag
`self.is_streaming` and the overlay's `should_be_visible`. -/
structure AssistantUIState where
  is_streaming : Bool
  overlayVisible : Bool
deriving DecidableEq, Repr

/-- `GeminiLiveAssistant.on_mouse_click`: return immediately on release; on a
press of `mouse.Button.x1`, set `is_streaming = not is_streaming` and call
`overlay.set_visibility(is_streaming)` with the new value; any other button
does nothing. -/
def on_mouse_click (s : AssistantUIState) (button : MouseButton)
    (pressed : Bool) : AssistantUIState :=
  if !pressed then s
  else if button = .x1 then
    let newFlag := !s.is_streaming
    { is_streaming := newFlag, overlayVisible := newFlag }
  else s

/-! ## Overlay thread -/

/-- `ICON_SIZE = 100` (src/main.py line 71). -/
def ICON_SIZE : Nat := 100

/-- A processed animation frame (`ImageTk.PhotoImage(bg)`): the source frame
identity and the size it was resized to. -/
structure PhotoImage where
  sourceFrame : Nat
  width : Nat
  height : Nat
deriving DecidableEq, Repr

/-- What the filesystem / decoder offers `load_gif`: the file is absent, the
open/decode raises, or it decodes to a frame sequence. -/
inductive GifSource
  | missing
  | decodeError
  | frames (fs : List Nat)
deriving DecidableEq, Repr

/-- `OverlayThread.load_gif`: a missing file logs a warning and returns `[]`;
any exception while opening or processing logs an error and returns `[]`;
otherwise every frame is converted, resized to `icon_size` square, composed
on black and collected. -/
def load_gif (iconSize : Nat) : GifSource → List PhotoImage
  | .missing => []
  | .decodeError => []
  | .frames fs =>
    fs.map fun f => { sourceFrame := f, width := iconSize, height := iconSize }

/-- Observable outcome of `OverlayThread.run` with respect to the animation. -/
structure OverlayRunOutcome where
  frames : List PhotoImage
  rendersAnimation : Bool
  crashed : Bool
deriving DecidableEq, Repr

/-- `OverlayThread.run`: load the frames; when the list is empty, print
"No frames loaded for overlay." and return without scheduling the animation
or entering `mainloop` — the thread ends cleanly, nothing is rendered and no
exception escapes.  Otherwise the animation runs. -/
def overlay_run (iconSize : Nat) (src : GifSource) : OverlayRunOutcome :=
  let fs := load_gif iconSize src
  if fs.isEmpty then
    { frames := fs, rendersAnimation := false, crashed := false }
  else
    { frames := fs, rendersAnimation := true, crashed := false }

/-! ## Construction-time state -/

/-- Fields set by `GeminiLiveAssistant.__init__` before any event is
processed. -/
structure AssistantInit where
  audio_in_queue : List (List Nat)
  out_queue : List MediaChunk
  out_queue_maxsize : Nat
  is_streaming : Bool
deriving DecidableEq, Repr

/-- `__init__`: `audio_in_queue = asyncio.Queue()`,
`out_queue = asyncio.Queue(maxsize=5)`, `is_streaming = True`. -/
def assistantInit : AssistantInit :=
  { audio_in_queue := []
    out_queue := []
    out_queue_maxsize := OUT_QUEUE_MAXSIZE
    is_streaming := true }

/-- Fields set by `OverlayThread.__init__`. -/
structure OverlayInit where
  frames : List PhotoImage
  current_frame_idx : Nat
  should_be_visible : Bool
  is_window_hidden : Bool
deriving DecidableEq, Repr

/-- `OverlayThread.__init__`: `frames = []`, `current_frame_idx = 0`,
`should_be_visible = True`, `is_window_hidden = False`. -/
def overlayThreadInit : OverlayInit :=
  { frames := []
    current_frame_idx := 0
    should_be_visible := true
    is_window_hidden := false }

/-! ## Startup guard (the __main__ block) -/

/-- Python truthiness of `API_KEY = os.getenv("GEMINI_API_KEY")`: `None`
(variable absent) and `""` are falsy. -/
def apiKeyTruthy : Option String → Bool
  | none => false
  | some s => !s.isEmpty

/-- Observable outcome of the `if __name__ == "__main__":` block. -/
structure StartupOutcome where
  printedLines : List String
  exitCode : Option Nat
  clientConstructed : Bool
  sessionOpenAttempted : Bool
  overlayStarted : Bool
  trayStarted : Bool
  asyncPipelineStarted : Bool
  overlayOutcome : Option OverlayRunOutcome
deriving DecidableEq, Repr

/-- The `__main__` block: `if not API_KEY:` print the two diagnostic lines
and `os._exit(1)` — the overlay thread, tray thread and
`GeminiLiveAssistant` (whose `__init__` constructs the genai client) are
never reached, so no network session is attempted.  Otherwise start the
overlay thread, start the tray thread, construct the assistant (client
constructed) and run the async pipeline, whose `run` attempts
`client.aio.live.connect`. -/
def mainStartup (apiKey : Option String) (gif : GifSource) : StartupOutcome :=
  if !apiKeyTruthy apiKey then
    { printedLines := ["ERROR: GEMINI_API_KEY not found in .env file.",
                       "Please create a .env file with your key."]
      exitCode := some 1
      clientConstructed := false
      sessionOpenAttempted := false
      overlayStarted := false
      trayStarted := false
      asyncPipelineStarted := false
      overlayOutcome := none }
  else
    { printedLines := []
      exitCode := none
      clientConstructed := true
      sessionOpenAttempted := true
      overlayStarted := true
      trayStarted := true
      asyncPipelineStarted := true
      overlayOutcome := some (overlay_run ICON_SIZE gif) }

/-! ## Helper lemmas -/

theorem outPut_eq_some (q q2 : List MediaChunk) (c : MediaChunk)
    (h : outPut q c = some q2) :
    q2 = q ++ [c] ∧ q.length < OUT_QUEUE_MAXSIZE := by
  unfold outPut at h
  split at h
  · exact ⟨(Option.some.injEq _ _).mp h |>.symm, by assumption⟩
  · exact absurd h (by simp)

theorem sendRun_inv (t : List PipeEvent) :
    ∀ s s' : SendState, sendRun s t = some s' →
      s'.sent ++ s'.outQueue = s.sent ++ s.outQueue ++ enqueuedOf t ∧
      s'.sent.length = s.sent.length + sendIterCount t := by
  induction t with
  | nil =>
    intro s s' h
    simp only [sendRun, Option.some.injEq] at h
    subst h
    simp [enqueuedOf, sendIterCount]
  | cons e rest ih =>
    intro s s' h
    cases e with
    | put c =>
      simp only [sendRun, sendStep] at h
      cases hq : outPut s.outQueue c with
      | none => rw [hq] at h; exact absurd h (by simp)
      | some q =>
        rw [hq] at h
        obtain ⟨hq1, _⟩ := outPut_eq_some _ _ _ hq
        obtain ⟨h1, h2⟩ := ih _ _ h
        subst hq1
        constructor
        · rw [h1]; simp [enqueuedOf, List.append_assoc]
        · rw [h2]; simp [sendIterCount]
    | sendIter =>
      simp only [sendRun, sendStep] at h
      cases hq : s.outQueue with
      | nil => rw [hq] at h; simp [outGet] at h
      | cons c q =>
        rw [hq] at h
        simp only [outGet] at h
        obtain ⟨h1, h2⟩ := ih _ _ h
        constructor
        · rw [h1]; simp [enqueuedOf, List.append_assoc]
        · rw [h2]; simp [sendIterCount]; omega

theorem sendRun_len_le (t : List PipeEvent) :
    ∀ s s' : SendState, s.outQueue.length ≤ OUT_QUEUE_MAXSIZE →
      sendRun s t = some s' → s'.outQueue.length ≤ OUT_QUEUE_MAXSIZE := by
  induction t with
  | nil =>
    intro s s' hs h
    simp only [sendRun, Option.some.injEq] at h
    subst h
    exact hs
  | cons e rest ih =>
    intro s s' hs h
    cases e with
    | put c =>
      simp only [sendRun, sendStep] at h
      cases hq : outPut s.outQueue c with
      | none => rw [hq] at h; exact absurd h (by simp)
      | some q =>
        rw [hq] at h
        obtain ⟨hq1, hlt⟩ := outPut_eq_some _ _ _ hq
        refine ih _ _ ?_ h
        subst hq1
        simp
        omega
    | sendIter =>
      simp only [sendRun, sendStep] at h
      cases hq : s.outQueue with
      | nil => rw [hq] at h; simp [outGet] at h
      | cons c q =>
        rw [hq] at h
        simp only [outGet] at h
        refine ih _ _ ?_ h
        have : (c :: q).length ≤ OUT_QUEUE_MAXSIZE := hq ▸ hs
        simp at this ⊢
        omega

theorem respStep_queue (st : RecvState) (r : GenResponse) :
    (respStep st r).queue =
      st.queue ++ (if optBytesTruthy r.data then [r.data.getD []] else []) := by
  unfold respStep
  by_cases hd : optBytesTruthy r.data
  · simp [hd]
  · by_cases ht : optStrTruthy r.text <;> simp [hd, ht]

theorem turnIter_no_raise (events : List TurnEvent) :
    ∀ st : RecvState, hasRaise events = false →
      (turnIter st events).2 = true ∧
      (turnIter st events).1.queue = st.queue ++ pushedData events := by
  induction events with
  | nil =>
    intro st _
    simp [turnIter, pushedData]
  | cons e rest ih =>
    intro st h
    cases e with
    | raiseErr => simp [hasRaise] at h
    | yield r =>
      simp only [hasRaise] at h
      obtain ⟨h1, h2⟩ := ih (respStep st r) h
      refine ⟨h1, ?_⟩
      show (turnIter (respStep st r) rest).1.queue = _
      rw [h2, respStep_queue]
      by_cases hd : optBytesTruthy r.data <;>
        simp [hd, pushedData, List.append_assoc]

theorem turnIter_raise (pre : List TurnEvent) (post : List TurnEvent) :
    ∀ st : RecvState, hasRaise pre = false →
      turnIter st (pre ++ TurnEvent.raiseErr :: post) = ((turnIter st pre).1, false) := by
  induction pre with
  | nil =>
    intro st _
    simp [turnIter]
  | cons e rest ih =>
    intro st h
    cases e with
    | raiseErr => simp [hasRaise] at h
    | yield r =>
      simp only [hasRaise] at h
      show turnIter (respStep st r) (rest ++ _) = _
      rw [ih (respStep st r) h]
      rfl

theorem pushedData_yieldData (m : List (List Nat)) (hm : ∀ b ∈ m, b ≠ []) :
    pushedData (m.map yieldData) = m ∧ hasRaise (m.map yieldData) = false := by
  induction m with
  | nil => simp [pushedData, hasRaise]
  | cons b rest ih =>
    have hb : b ≠ [] := hm b (by simp)
    obtain ⟨ih1, ih2⟩ := ih fun x hx => hm x (by simp [hx])
    have hbt : optBytesTruthy (some b) = true := by
      cases b with
      | nil => exact absurd rfl hb
      | cons x xs => simp [optBytesTruthy]
    constructor
    · simp [pushedData, yieldData, hbt, ih1]
    · simp [hasRaise, yieldData, ih2]

theorem speakerSteps_eq (q : List (List Nat)) :
    ∀ written : List (List Nat), speakerSteps written q = written ++ q := by
  induction q with
  | nil => intro w; simp [speakerSteps]
  | cons b rest ih => intro w; rw [speakerSteps, ih]; simp

/-! ## Claim theorems -/

/-- C1: for every sequence of Media Chunks enqueued on the Outbound Queue,
the sender loop transmits them to the network session in strict enqueue
order (FIFO), dequeuing exactly one chunk per iteration with no reordering
or priority between audio and image chunks: after any trace of completed
events from the initial empty state, the sent sequence is exactly the first
`sendIterCount` chunks of the enqueue sequence, and the queue holds the
rest in order. -/
theorem send_loop_fifo (t : List PipeEvent) (s' : SendState)
    (h : sendRun { outQueue := [], sent := [] } t = some s') :
    s'.sent = (enqueuedOf t).take s'.sent.length ∧
    s'.outQueue = (enqueuedOf t).drop s'.sent.length ∧
    s'.sent.length = sendIterCount t := by
  obtain ⟨h1, h2⟩ := sendRun_inv t _ s' h
  simp only [List.nil_append, List.length_nil, Nat.zero_add] at h1 h2
  refine ⟨?_, ?_, h2⟩
  · rw [← h1, List.take_left]
  · rw [← h1, List.drop_left]

theorem send_loop_fifo_witness :
    (SendState.mk [MediaChunk.mk .imageJpeg [2]] [MediaChunk.mk .audioPcm [1]]).sent =
      (enqueuedOf [PipeEvent.put (MediaChunk.mk .audioPcm [1]),
        PipeEvent.put (MediaChunk.mk .imageJpeg [2]), PipeEvent.sendIter]).take
        (SendState.mk [MediaChunk.mk .imageJpeg [2]] [MediaChunk.mk .audioPcm [1]]).sent.length ∧
    (SendState.mk [MediaChunk.mk .imageJpeg [2]] [MediaChunk.mk .audioPcm [1]]).outQueue =
      (enqueuedOf [PipeEvent.put (MediaChunk.mk .audioPcm [1]),
        PipeEvent.put (MediaChunk.mk .imageJpeg [2]), PipeEvent.sendIter]).drop
        (SendState.mk [MediaChunk.mk .imageJpeg [2]] [MediaChunk.mk .audioPcm [1]]).sent.length ∧
    (SendState.mk [MediaChunk.mk .imageJpeg [2]] [MediaChunk.mk .audioPcm [1]]).sent.length =
      sendIterCount [PipeEvent.put (MediaChunk.mk .audioPcm [1]),
        PipeEvent.put (MediaChunk.mk .imageJpeg [2]), PipeEvent.sendIter] :=
  send_loop_fifo
    [PipeEvent.put (MediaChunk.mk .audioPcm [1]),
      PipeEvent.put (MediaChunk.mk .imageJpeg [2]), PipeEvent.sendIter]
    (SendState.mk [MediaChunk.mk .imageJpeg [2]] [MediaChunk.mk .audioPcm [1]])
    (by decide)

/-- C2: after each receive turn that ends without error, every audio byte
buffer that was in the Inbound Queue before the turn boundary is discarded
(the queue is drained to length 0), and nonempty byte buffers pushed after
the boundary are retained in the queue and delivered to the player in
order. -/
theorem turn_boundary_flush (st : RecvState) (events : List TurnEvent)
    (m : List (List Nat)) (hn : hasRaise events = false)
    (hm : ∀ b ∈ m, b ≠ []) :
    (receive_turn st events).queue = [] ∧
    (turnIter (receive_turn st events) (m.map yieldData)).1.queue = m ∧
    speakerSteps [] m = m := by
  obtain ⟨h1, h2⟩ := turnIter_no_raise events st hn
  have hflush : (receive_turn st events).queue = [] := by
    unfold receive_turn
    cases hq : turnIter st events with
    | mk st2 flag =>
      rw [hq] at h1
      simp at h1
      subst h1
      rfl
  obtain ⟨hp, hr⟩ := pushedData_yieldData m hm
  obtain ⟨_, h4⟩ := turnIter_no_raise (m.map yieldData) (receive_turn st events) hr
  refine ⟨hflush, ?_, by rw [speakerSteps_eq]; simp⟩
  rw [h4, hflush, hp]
  simp

theorem turn_boundary_flush_witness :
    (receive_turn (RecvState.mk [[1]] []) [yieldData [2]]).queue = [] ∧
    (turnIter (receive_turn (RecvState.mk [[1]] []) [yieldData [2]])
      ([[3]].map yieldData)).1.queue = [[3]] ∧
    speakerSteps [] [[3]] = [[3]] :=
  turn_boundary_flush (RecvState.mk [[1]] []) [yieldData [2]] [[3]]
    (by decide) (by decide)

/-- C3: whenever the Streaming Flag is false, neither the mic loop nor the
screen loop enqueues a Media Chunk onto the Outbound Queue: the mic loop
still performs its device read (consuming the next read outcome) and steps
with the queue unchanged, and the screen loop does not attempt a capture
and sleeps 0.2 s (200 ms). -/
theorem streaming_false_idle (s : MicState) (r : ReadOutcome)
    (rest : List ReadOutcome) (d : List Nat) (q : List MediaChunk)
    (capture : Except Unit (List Nat))
    (hs : s.deviceStream = r :: rest)
    (hr : streamRead exception_on_overflow_kwarg r = Except.ok d) :
    mic_loop_iter false s =
      MicStepResult.stepped { deviceStream := rest, outQueue := s.outQueue } ∧
    screen_loop_iter false q capture =
      { captureAttempted := false, outQueue := some q, sleepMs := 200 } := by
  constructor
  · simp [mic_loop_iter, hs, hr]
  · simp [screen_loop_iter]

theorem streaming_false_idle_witness :
    mic_loop_iter false
        (MicState.mk [ReadOutcome.ok [5]] [MediaChunk.mk .audioPcm [9]]) =
      MicStepResult.stepped
        { deviceStream := [],
          outQueue :=
            (MicState.mk [ReadOutcome.ok [5]] [MediaChunk.mk .audioPcm [9]]).outQueue } ∧
    screen_loop_iter false [] (Except.ok [7]) =
      { captureAttempted := false, outQueue := some [], sleepMs := 200 } :=
  streaming_false_idle
    (MicState.mk [ReadOutcome.ok [5]] [MediaChunk.mk .audioPcm [9]])
    (ReadOutcome.ok [5]) [] [5] [] (Except.ok [7]) rfl rfl

/-- C4: the Outbound Queue has fixed capacity 5 and every completed event
preserves that its length never exceeds 5; with 5 chunks already enqueued,
a 6th enqueue attempt suspends (the single-put trace cannot complete), and
the same put completes after one dequeue by the sender. -/
theorem out_queue_capacity (s s' : SendState) (t : List PipeEvent)
    (c : MediaChunk) (hs : s.outQueue.length ≤ OUT_QUEUE_MAXSIZE)
    (h : sendRun s t = some s') :
    OUT_QUEUE_MAXSIZE = 5 ∧
    s'.outQueue.length ≤ OUT_QUEUE_MAXSIZE ∧
    (s.outQueue.length = 5 → sendRun s [PipeEvent.put c] = none) ∧
    (s.outQueue.length = 5 →
      (sendRun s [PipeEvent.sendIter, PipeEvent.put c]).isSome = true) := by
  refine ⟨rfl, sendRun_len_le t s s' hs h, ?_, ?_⟩
  · intro hfull
    simp [sendRun, sendStep, outPut, hfull, OUT_QUEUE_MAXSIZE]
  · intro hfull
    cases hq : s.outQueue with
    | nil => rw [hq] at hfull; simp at hfull
    | cons a rest =>
      have hlen : rest.length = 4 := by
        rw [hq] at hfull
        simp at hfull
        omega
      simp [sendRun, sendStep, outGet, outPut, hq, hlen, OUT_QUEUE_MAXSIZE]

theorem out_queue_capacity_witness :
    OUT_QUEUE_MAXSIZE = 5 ∧
    (SendState.mk [MediaChunk.mk .audioPcm [], MediaChunk.mk .audioPcm [],
      MediaChunk.mk .audioPcm [], MediaChunk.mk .audioPcm [],
      MediaChunk.mk .audioPcm []] []).outQueue.length ≤ OUT_QUEUE_MAXSIZE ∧
    ((SendState.mk [MediaChunk.mk .audioPcm [], MediaChunk.mk .audioPcm [],
      MediaChunk.mk .audioPcm [], MediaChunk.mk .audioPcm [],
      MediaChunk.mk .audioPcm []] []).outQueue.length = 5 →
      sendRun (SendState.mk [MediaChunk.mk .audioPcm [], MediaChunk.mk .audioPcm [],
        MediaChunk.mk .audioPcm [], MediaChunk.mk .audioPcm [],
        MediaChunk.mk .audioPcm []] [])
        [PipeEvent.put (MediaChunk.mk .imageJpeg [6])] = none) ∧
    ((SendState.mk [MediaChunk.mk .audioPcm [], MediaChunk.mk .audioPcm [],
      MediaChunk.mk .audioPcm [], MediaChunk.mk .audioPcm [],
      MediaChunk.mk .audioPcm []] []).outQueue.length = 5 →
      (sendRun (SendState.mk [MediaChunk.mk .audioPcm [], MediaChunk.mk .audioPcm [],
        MediaChunk.mk .audioPcm [], MediaChunk.mk .audioPcm [],
        MediaChunk.mk .audioPcm []] [])
        [PipeEvent.sendIter,
          PipeEvent.put (MediaChunk.mk .imageJpeg [6])]).isSome = true) :=
  out_queue_capacity
    (SendState.mk [MediaChunk.mk .audioPcm [], MediaChunk.mk .audioPcm [],
      MediaChunk.mk .audioPcm [], MediaChunk.mk .audioPcm [],
      MediaChunk.mk .audioPcm []] [])
    (SendState.mk [MediaChunk.mk .audioPcm [], MediaChunk.mk .audioPcm [],
      MediaChunk.mk .audioPcm [], MediaChunk.mk .audioPcm [],
      MediaChunk.mk .audioPcm []] [])
    [] (MediaChunk.mk .imageJpeg [6]) (by decide) rfl

/-- C5: for every state whose overlay visibility agrees with the Streaming
Flag (as holds in every reachable state), two presses of Mouse Button x1
return the flag to its original value; one press inverts both the flag and
the overlay visibility; releases and presses of other buttons leave the
state unchanged. -/
theorem toggle_involution (s : AssistantUIState) (b : MouseButton)
    (hvis : s.overlayVisible = s.is_streaming) :
    (on_mouse_click (on_mouse_click s MouseButton.x1 true)
      MouseButton.x1 true).is_streaming = s.is_streaming ∧
    (on_mouse_click s MouseButton.x1 true).is_streaming = !s.is_streaming ∧
    (on_mouse_click s MouseButton.x1 true).overlayVisible = !s.overlayVisible ∧
    on_mouse_click s b false = s ∧
    (b ≠ MouseButton.x1 → on_mouse_click s b true = s) := by
  refine ⟨?_, ?_, ?_, ?_, ?_⟩
  · simp [on_mouse_click]
  · simp [on_mouse_click]
  · simp [on_mouse_click, hvis]
  · simp [on_mouse_click]
  · intro hb
    simp [on_mouse_click, hb]

theorem toggle_involution_witness :
    ((on_mouse_click (on_mouse_click (AssistantUIState.mk true true)
        MouseButton.x1 true) MouseButton.x1 true).is_streaming =
      (AssistantUIState.mk true true).is_streaming ∧
    (on_mouse_click (AssistantUIState.mk true true)
        MouseButton.x1 true).is_streaming =
      !(AssistantUIState.mk true true).is_streaming ∧
    (on_mouse_click (AssistantUIState.mk true true)
        MouseButton.x1 true).overlayVisible =
      !(AssistantUIState.mk true true).overlayVisible ∧
    on_mouse_click (AssistantUIState.mk true true) MouseButton.left false =
      AssistantUIState.mk true true ∧
    (MouseButton.left ≠ MouseButton.x1 →
      on_mouse_click (AssistantUIState.mk true true) MouseButton.left true =
        AssistantUIState.mk true true)) ∧
    on_mouse_click (AssistantUIState.mk true true) MouseButton.left true =
      AssistantUIState.mk true true :=
  ⟨toggle_involution (AssistantUIState.mk true true) MouseButton.left rfl,
    (toggle_involution (AssistantUIState.mk true true)
      MouseButton.left rfl).2.2.2.2 (by decide)⟩

/-- C6: if the API key secret is absent (falsy) at startup, the process
prints the diagnostic lines and exits with status 1 before constructing the
client or attempting any network session; if the secret is present, startup
proceeds to start the overlay, tray, and async pipeline. -/
theorem startup_key_guard (apiKey : Option String) (gif : GifSource) :
    (apiKeyTruthy apiKey = false →
      (mainStartup apiKey gif).printedLines =
        ["ERROR: GEMINI_API_KEY not found in .env file.",
         "Please create a .env file with your key."] ∧
      (mainStartup apiKey gif).exitCode = some 1 ∧
      (mainStartup apiKey gif).clientConstructed = false ∧
      (mainStartup apiKey gif).sessionOpenAttempted = false ∧
      (mainStartup apiKey gif).overlayStarted = false) ∧
    (apiKeyTruthy apiKey = true →
      (mainStartup apiKey gif).exitCode = none ∧
      (mainStartup apiKey gif).overlayStarted = true ∧
      (mainStartup apiKey gif).trayStarted = true ∧
      (mainStartup apiKey gif).asyncPipelineStarted = true) := by
  constructor <;> intro h <;> simp [mainStartup, h]

theorem startup_key_guard_witness :
    ((mainStartup none GifSource.missing).printedLines =
        ["ERROR: GEMINI_API_KEY not found in .env file.",
         "Please create a .env file with your key."] ∧
      (mainStartup none GifSource.missing).exitCode = some 1 ∧
      (mainStartup none GifSource.missing).clientConstructed = false ∧
      (mainStartup none GifSource.missing).sessionOpenAttempted = false ∧
      (mainStartup none GifSource.missing).overlayStarted = false) ∧
    ((mainStartup (some "key") GifSource.missing).exitCode = none ∧
      (mainStartup (some "key") GifSource.missing).overlayStarted = true ∧
      (mainStartup (some "key") GifSource.missing).trayStarted = true ∧
      (mainStartup (some "key") GifSource.missing).asyncPipelineStarted = true) :=
  ⟨(startup_key_guard none GifSource.missing).1 rfl,
    (startup_key_guard (some "key") GifSource.missing).2 rfl⟩

/-- C7 counterexample: a single device read that raises a non-overflow
exception terminates the mic loop — `mic_loop` has no `try/except`, so the
claim that no per-chunk read exception terminates the loop is false at this
input. -/
theorem mic_read_error_terminates :
    mic_loop_iter true
        { deviceStream := [ReadOutcome.deviceError], outQueue := [] } =
      MicStepResult.raised := by
  rfl

/-- C7 amended: every mic read is issued with `exception_on_overflow=False`,
so an input-overflow condition is non-fatal — the read returns the data and
the loop iteration never terminates the loop; only a non-overflow device
exception propagates. -/
theorem mic_read_overflow_nonfatal (is_streaming : Bool) (s : MicState)
    (d : List Nat) (rest : List ReadOutcome)
    (hs : s.deviceStream = ReadOutcome.overflow d :: rest) :
    exception_on_overflow_kwarg = false ∧
    streamRead exception_on_overflow_kwarg (ReadOutcome.overflow d) =
      Except.ok d ∧
    mic_loop_iter is_streaming s ≠ MicStepResult.raised := by
  refine ⟨rfl, rfl, ?_⟩
  simp only [mic_loop_iter, hs, streamRead, exception_on_overflow_kwarg,
    Bool.false_eq_true, if_false]
  cases is_streaming with
  | false => simp
  | true =>
    simp only [if_true]
    cases outPut s.outQueue { mimeType := .audioPcm, data := d } <;> simp

theorem mic_read_overflow_nonfatal_witness :
    exception_on_overflow_kwarg = false ∧
    streamRead exception_on_overflow_kwarg (ReadOutcome.overflow [4]) =
      Except.ok [4] ∧
    mic_loop_iter true (MicState.mk [ReadOutcome.overflow [4]] []) ≠
      MicStepResult.raised :=
  mic_read_overflow_nonfatal true
    (MicState.mk [ReadOutcome.overflow [4]] []) [4] [] rfl

/-- C8: when the overlay animation asset is missing or cannot be decoded,
`load_gif` returns the empty frame list, `run` renders no animation and
raises nothing, and the tray controller still starts. -/
theorem gif_failure_graceful (src : GifSource) (apiKey : Option String)
    (hsrc : src = GifSource.missing ∨ src = GifSource.decodeError)
    (hk : apiKeyTruthy apiKey = true) :
    load_gif ICON_SIZE src = [] ∧
    (overlay_run ICON_SIZE src).frames = [] ∧
    (overlay_run ICON_SIZE src).rendersAnimation = false ∧
    (overlay_run ICON_SIZE src).crashed = false ∧
    (mainStartup apiKey src).trayStarted = true := by
  cases hsrc with
  | inl h => subst h; simp [load_gif, overlay_run, mainStartup, hk]
  | inr h => subst h; simp [load_gif, overlay_run, mainStartup, hk]

theorem gif_failure_graceful_witness :
    load_gif ICON_SIZE GifSource.missing = [] ∧
    (overlay_run ICON_SIZE GifSource.missing).frames = [] ∧
    (overlay_run ICON_SIZE GifSource.missing).rendersAnimation = false ∧
    (overlay_run ICON_SIZE GifSource.missing).crashed = false ∧
    (mainStartup (some "key") GifSource.missing).trayStarted = true :=
  gif_failure_graceful GifSource.missing (some "key") (Or.inl rfl) rfl

/-- C9: if a receive turn raises before completing, the Inbound Queue flush
is skipped: the bytes queued before the failure (the initial queue plus the
payloads pushed before the raise) remain in the queue and are delivered to
the player in order; the same raise-free turn, by contrast, ends with the
flush draining the queue. -/
theorem recv_error_skips_flush (st : RecvState) (pre post : List TurnEvent)
    (hn : hasRaise pre = false) :
    (receive_turn st (pre ++ TurnEvent.raiseErr :: post)).queue =
      st.queue ++ pushedData pre ∧
    speakerSteps [] (st.queue ++ pushedData pre) =
      st.queue ++ pushedData pre ∧
    (receive_turn st pre).queue = [] := by
  obtain ⟨h1, h2⟩ := turnIter_no_raise pre st hn
  refine ⟨?_, by rw [speakerSteps_eq]; simp, ?_⟩
  · unfold receive_turn
    rw [turnIter_raise pre post st hn]
    exact h2
  · unfold receive_turn
    cases hq : turnIter st pre with
    | mk st2 flag =>
      rw [hq] at h1
      simp at h1
      subst h1
      rfl

theorem recv_error_skips_flush_witness :
    (receive_turn (RecvState.mk [[1]] [])
        ([yieldData [2]] ++ TurnEvent.raiseErr :: [])).queue =
      (RecvState.mk [[1]] []).queue ++ pushedData [yieldData [2]] ∧
    speakerSteps []
        ((RecvState.mk [[1]] []).queue ++ pushedData [yieldData [2]]) =
      (RecvState.mk [[1]] []).queue ++ pushedData [yieldData [2]] ∧
    (receive_turn (RecvState.mk [[1]] []) [yieldData [2]]).queue = [] :=
  recv_error_skips_flush (RecvState.mk [[1]] []) [yieldData [2]] [] rfl

/-- C10: at construction, `GeminiLiveAssistant.__init__` sets the Streaming
Flag to true and `OverlayThread.__init__` sets the overlay visibility flag
to true, so the assistant starts streaming with the overlay shown before
any toggle event is processed. -/
theorem init_streaming_and_visible :
    assistantInit.is_streaming = true ∧
    overlayThreadInit.should_be_visible = true := by
  constructor <;> rfl

end GeminiLive
